import Mathlib

/-!
Verification of the sign-language classification backend (`backend/app.py`).

The development shallowly embeds the decision logic of the backend:
* the data-URL prefix stripping performed on the incoming base64 image
  payload (Python `str.split('base64,')` semantics),
* the per-model preprocessing pipeline `preprocess_image_for_keras`
  (PIL decode/resize/convert and the numpy array operations, with the
  external PIL primitives abstracted as an `ImageOps` oracle),
* the ensemble loop of the `/api/interpret-sign` handler `interpret_sign`
  (iteration over the loaded models, per-model skip-on-failure, the
  `max(results, key=...)` arbiter and the 0.6 confidence threshold),
* the `/api/text-to-speech` handler's fixed-name temporary-file protocol.

Machine floats of the source are embedded as exact rationals `ℚ`: the only
operations performed on confidences are comparisons and `max`, which the
embedding preserves faithfully.  External collaborators (Keras models, the
base64 decoder, PIL pixel resampling, gTTS) are parameters of the
definitions; everything written in the repository itself is translated
directly.
-/

/-! ### Python `str.split('base64,')` and the prefix stripping

`interpret_sign` (app.py lines 93-94) runs
`if 'base64,' in image_data: image_data = image_data.split('base64,')[1]`.
`splitB64` embeds CPython's `str.split` with the fixed separator
`'base64,'`: scan left to right, cut at each non-overlapping occurrence of
the separator.  The membership test `'base64,' in s` holds exactly when the
split produces at least two parts, so the handler's two-line idiom is the
single match in `pyStripB64`.  Fuel (the length of the input) makes the
recursion structural. -/

/-- The separator `'base64,'` as a character list. -/
def SEP : List Char := ['b', 'a', 's', 'e', '6', '4', ',']

/-- One step of CPython `str.split('base64,')`: if the separator starts
here, cut; otherwise keep the character.  Fuel bounds the recursion. -/
def splitB64Aux : Nat → List Char → List (List Char)
  | _, [] => [[]]
  | 0, l => [l]
  | fuel + 1, c :: rest =>
    if SEP.isPrefixOf (c :: rest) then
      -- drop the 7-character separator (one char already matched by `c`)
      [] :: splitB64Aux fuel (rest.drop 6)
    else
      match splitB64Aux fuel rest with
      | [] => [[c]]
      | h :: t => (c :: h) :: t

/-- CPython `s.split('base64,')`. -/
def splitB64 (l : List Char) : List (List Char) :=
  splitB64Aux l.length l

/-- Lines 93-94 of app.py: strip an optional data-URL prefix.  The Python
test `'base64,' in image_data` holds iff the split has at least two parts,
in which case the handler keeps part `[1]`. -/
def pyStripB64 (s : String) : String :=
  match splitB64 s.data with
  | _ :: second :: _ => ⟨second⟩
  | _ => s

/-! ### Base64 encoding (external `base64.b64encode`)

Used only to state the round-trip claim about data-URL prefixed payloads:
the encoder's alphabet contains no comma, so an encoded payload can never
collide with the `'base64,'` separator. -/

/-- The standard base64 alphabet. -/
def B64CHARS : List Char :=
  ['A', 'B', 'C', 'D', 'E', 'F', 'G', 'H', 'I', 'J', 'K', 'L', 'M',
   'N', 'O', 'P', 'Q', 'R', 'S', 'T', 'U', 'V', 'W', 'X', 'Y', 'Z',
   'a', 'b', 'c', 'd', 'e', 'f', 'g', 'h', 'i', 'j', 'k', 'l', 'm',
   'n', 'o', 'p', 'q', 'r', 's', 't', 'u', 'v', 'w', 'x', 'y', 'z',
   '0', '1', '2', '3', '4', '5', '6', '7', '8', '9', '+', '/']

/-- Character of the base64 alphabet at a sextet index. -/
def b64char (n : Nat) : Char := (B64CHARS.get? n).getD 'A'

/-- Standard base64 encoding of a byte list (bytes reduced mod 256),
with `'='` padding, as produced by `base64.b64encode`. -/
def b64encode : List Nat → List Char
  | [] => []
  | [a] =>
    [b64char (a % 256 / 4), b64char (a % 256 % 4 * 16), '=', '=']
  | [a, b] =>
    [b64char (a % 256 / 4), b64char (a % 256 % 4 * 16 + b % 256 / 16),
     b64char (b % 256 % 16 * 4), '=']
  | a :: b :: c :: rest =>
    b64char (a % 256 / 4) :: b64char (a % 256 % 4 * 16 + b % 256 / 16) ::
    b64char (b % 256 % 16 * 4 + c % 256 / 64) :: b64char (c % 256 % 64) ::
    b64encode rest

/-! ### Images and numpy arrays

`preprocess_image_for_keras` (app.py lines 65-82) decodes the request
bytes with PIL (`Image.open`), resizes to the model-specific spatial size,
converts to `'L'` (grayscale) or `'RGB'`, builds a numpy array of `uint8`
pixels, appends a channel axis for the grayscale model
(`np.expand_dims(axis=-1)`), divides by `255.0` and prepends a batch axis
(`np.expand_dims(axis=0)`).  PIL's decoding and pixel resampling are
external; they are abstracted by `ImageOps`.  PIL's contract that
`img.resize((w, h))` yields an image of exactly the requested size is
encoded structurally by `resize` building the record with those bounds.
Pixels are `Fin 256` triples (`uint8` RGB). -/

/-- A decoded PIL image: its size and its RGB pixel content
(row, column ↦ 8-bit channel triple). -/
structure PILImage where
  width : Nat
  height : Nat
  pix : Nat → Nat → Fin 256 × Fin 256 × Fin 256

/-- The external PIL primitives used by the preprocessor: `Image.open`
(decode, `none` on undecodable bytes, the caught exception path) and the
resampling kernel of `Image.resize`. -/
structure ImageOps where
  decode : List Nat → Option PILImage
  resizePix : PILImage → Nat → Nat → Nat → Nat → Fin 256 × Fin 256 × Fin 256

/-- `img.resize((w, h))`: an image of exactly the requested size whose
pixel content comes from the external resampling kernel. -/
def resize (ops : ImageOps) (img : PILImage) (w h : Nat) : PILImage :=
  ⟨w, h, ops.resizePix img w h⟩

/-- PIL `convert('L')` luminance of one RGB pixel:
`L = (299 R + 587 G + 114 B) / 1000` (integer division). -/
def lumaOf (c : Fin 256 × Fin 256 × Fin 256) : Fin 256 :=
  ⟨(299 * c.1.val + 587 * c.2.1.val + 114 * c.2.2.val) / 1000, by
    have h1 := c.1.isLt
    have h2 := c.2.1.isLt
    have h3 := c.2.2.isLt
    omega⟩

/-- A numpy array as a rose tree: scalars at the leaves, one `arr` level
per axis. -/
inductive NDArray where
  | scalar (v : ℚ)
  | arr (xs : List NDArray)

/-- `a.shape`: the length of each axis, read off the first slice. -/
def NDArray.shape : NDArray → List Nat
  | .scalar _ => []
  | .arr [] => [0]
  | .arr (x :: xs) => (xs.length + 1) :: x.shape

/-- All scalar entries of an array, in row-major order. -/
def NDArray.entries : NDArray → List ℚ
  | .scalar v => [v]
  | .arr [] => []
  | .arr (x :: xs) => x.entries ++ (NDArray.arr xs).entries

/-- Elementwise map over the scalars (numpy broadcasting of `/ 255.0`). -/
def NDArray.mapScalars (f : ℚ → ℚ) : NDArray → NDArray
  | .scalar v => .scalar (f v)
  | .arr [] => .arr []
  | .arr (x :: xs) =>
    match NDArray.mapScalars f (.arr xs) with
    | .arr ys => .arr (x.mapScalars f :: ys)
    | .scalar v => .scalar v

/-- `np.expand_dims(a, axis=-1)`: a trailing axis of size 1 (every scalar
becomes a singleton). -/
def NDArray.expandLast : NDArray → NDArray
  | .scalar v => .arr [.scalar v]
  | .arr [] => .arr []
  | .arr (x :: xs) =>
    match NDArray.expandLast (.arr xs) with
    | .arr ys => .arr (x.expandLast :: ys)
    | .scalar v => .scalar v

/-- `np.expand_dims(a, axis=0)`: a leading batch axis of size 1. -/
def NDArray.expandFirst (a : NDArray) : NDArray := .arr [a]

/-- `np.array` of a grayscale (`convert('L')`) image: a
`height × width` array of luminances. -/
def npOfGrayImg (img : PILImage) : NDArray :=
  .arr ((List.range img.height).map fun y =>
    .arr ((List.range img.width).map fun x =>
      .scalar ((lumaOf (img.pix y x)).val : ℚ)))

/-- `np.array` of an RGB (`convert('RGB')`) image: a
`height × width × 3` array of channel values. -/
def npOfRGBImg (img : PILImage) : NDArray :=
  .arr ((List.range img.height).map fun y =>
    .arr ((List.range img.width).map fun x =>
      .arr [.scalar ((img.pix y x).1.val : ℚ),
            .scalar ((img.pix y x).2.1.val : ℚ),
            .scalar ((img.pix y x).2.2.val : ℚ)]))

/-- `preprocess_image_for_keras` (app.py lines 65-82).  `none` embeds the
`except` path returning Python `None` (decode failure, or the
`ValueError` on an unknown model type). -/
def preprocess_image_for_keras (ops : ImageOps) (image_bytes : List Nat)
    (model_type : String) : Option NDArray :=
  match ops.decode image_bytes with
  | none => none
  | some img =>
    let img_array? : Option NDArray :=
      if model_type = "asl" then
        -- img.resize((28, 28)).convert('L'); np.array; expand_dims(axis=-1)
        some (NDArray.expandLast (npOfGrayImg (resize ops img 28 28)))
      else if model_type = "digit" ∨ model_type = "isl" then
        -- img.resize((32, 32)).convert('RGB'); np.array
        some (npOfRGBImg (resize ops img 32 32))
      else
        none
    match img_array? with
    | none => none
    | some img_array =>
      -- astype('float32') / 255.0; np.expand_dims(axis=0)
      some (NDArray.expandFirst (img_array.mapScalars (fun v => v / 255)))

/-! ### Label alphabets (app.py lines 55-63) -/

/-- `DIGIT_LABELS`. -/
def DIGIT_LABELS : List String :=
  ["0", "1", "2", "3", "4", "5", "6", "7", "8", "9"]

/-- `ASL_LABELS` (24 letters, no J and no Z). -/
def ASL_LABELS : List String :=
  ["A", "B", "C", "D", "E", "F", "G", "H", "I", "K", "L", "M", "N",
   "O", "P", "Q", "R", "S", "T", "U", "V", "W", "X", "Y"]

/-- `ISL_LABELS` (26 letters). -/
def ISL_LABELS : List String :=
  ["A", "B", "C", "D", "E", "F", "G", "H", "I", "J", "K", "L", "M",
   "N", "O", "P", "Q", "R", "S", "T", "U", "V", "W", "X", "Y", "Z"]

/-- `LABEL_MAPS`: the three configured symbol sets, in the insertion order
of the source dictionary. -/
def LABEL_MAPS : List (String × List String) :=
  [("digit", DIGIT_LABELS), ("asl", ASL_LABELS), ("isl", ISL_LABELS)]

/-- Python `LABEL_MAPS.get(model_type, [])`. -/
def labelMapGet (model_type : String) : List String :=
  match LABEL_MAPS.lookup model_type with
  | some m => m
  | none => []

/-! ### The ensemble loop and arbiter of `interpret_sign`
(app.py lines 84-163)

A loaded Keras model is abstracted by its `predict` function, returning
the batch of probability rows (`none` embeds a raised inference exception,
absorbed by the handler's `except`).  The registry `models` is the ordered
association list the source dictionary iterates over
(`digit`, `asl`, `isl` in the deployed configuration, entries mapped to
`none` when the startup load failed). -/

/-- A loaded Keras classifier: `model.predict` on a preprocessed tensor.
`none` embeds a raised exception during inference. -/
structure KerasModel where
  predict : NDArray → Option (List (List ℚ))

/-- `float(np.max(row))`; `none` embeds the exception `np.max` raises on
an empty row. -/
def npMax : List ℚ → Option ℚ
  | [] => none
  | x :: xs => some (xs.foldl max x)

/-- Accumulator loop of `np.argmax`: keep the first strictly greater
value, so the first occurrence of the maximum wins. -/
def argmaxAux : List ℚ → Nat → Nat → ℚ → Nat
  | [], _, best_i, _ => best_i
  | x :: xs, i, best_i, best_v =>
    if best_v < x then argmaxAux xs (i + 1) i x
    else argmaxAux xs (i + 1) best_i best_v

/-- `int(np.argmax(row))`: index of the first occurrence of the maximum;
`none` embeds the exception on an empty row. -/
def npArgmax : List ℚ → Option Nat
  | [] => none
  | x :: xs => some (argmaxAux xs 1 0 x)

/-- One entry of the `results` list (app.py lines 119-123). -/
structure SResult where
  model : String
  label : String
  confidence : ℚ
deriving DecidableEq, Repr

/-- One iteration of the `for model_type, model in models.items()` loop
(app.py lines 100-130): `none` means this symbol set contributes no
candidate (unloaded model, preprocessing failure, inference exception, or
out-of-bounds predicted index), `some r` the appended result. -/
def stepModel (ops : ImageOps) (image_bytes : List Nat)
    (entry : String × Option KerasModel) : Option SResult :=
  match entry.2 with
  | none => none
  | some model =>
    match preprocess_image_for_keras ops image_bytes entry.1 with
    | none => none
    | some processed_image =>
      match model.predict processed_image with
      | none => none
      | some predictions =>
        match predictions with
        | [] => none
        | row :: _ =>
          match npMax row, npArgmax row with
          | some confidence, some predicted_index =>
            let label_map := labelMapGet entry.1
            if h : predicted_index < label_map.length then
              some ⟨entry.1, label_map.get ⟨predicted_index, h⟩, confidence⟩
            else
              none
          | _, _ => none

/-- The `results` list collected by the loop, in iteration order. -/
def collectResults (ops : ImageOps) (models : List (String × Option KerasModel))
    (image_bytes : List Nat) : List SResult :=
  models.filterMap (stepModel ops image_bytes)

/-- One comparison of Python `max` with `key=lambda x: x['confidence']`:
the running best is replaced only by a strictly greater confidence. -/
def maxStep (best y : SResult) : SResult :=
  if best.confidence < y.confidence then y else best

/-- Python `max(results, key=lambda x: x['confidence'])` (app.py line
137): fold keeping the current best unless a strictly greater confidence
appears, so the first maximal element wins. `none` embeds the exception on
an empty list (unreachable in the handler, which returns earlier). -/
def pyMaxBy : List SResult → Option SResult
  | [] => none
  | x :: xs => some (xs.foldl maxStep x)

/-- `KERAS_CONFIDENCE_THRESHOLD = 0.6` (app.py line 39). -/
def KERAS_CONFIDENCE_THRESHOLD : ℚ := 0.6

/-- A `jsonify` body: the result shape `[text, confidence, model]` of the
interpretation endpoint (exactly those three fields — there is no separate
accepted/low-confidence flag), an `[error]` object, or the `[audio]`
object of the speech endpoint. -/
inductive RespBody where
  | result (text : String) (confidence : ℚ) (model : String)
  | error (msg : String)
  | audio (dataUrl : String)
deriving DecidableEq, Repr

/-- A response: body plus HTTP status code. -/
structure HttpResponse where
  body : RespBody
  status : Nat
deriving DecidableEq, Repr

/-- The `/api/interpret-sign` handler (app.py lines 84-163).  External
parameters: the PIL primitives `ops`, the registry `models` in dictionary
iteration order, and the external `base64.b64decode` (`decodeB64`,
returning `none` on the `binascii.Error` path).  The request body is
`none` when `request.json` is `None`, otherwise its key/value pairs. -/
def interpret_sign (ops : ImageOps) (models : List (String × Option KerasModel))
    (decodeB64 : String → Option (List Nat))
    (data : Option (List (String × String))) : HttpResponse :=
  match data with
  | none => ⟨.error "Image data is required", 400⟩
  | some d =>
    match d.lookup "image" with
    | none => ⟨.error "Image data is required", 400⟩
    | some image_data =>
      match decodeB64 (pyStripB64 image_data) with
      | none => ⟨.error "Invalid base64 data", 400⟩
      | some image_bytes =>
        let results := collectResults ops models image_bytes
        match pyMaxBy results with
        | none =>
          ⟨.result "Unable to interpret sign (Prediction failed for all models)"
            0 "none", 500⟩
        | some best_result =>
          if best_result.confidence ≥ KERAS_CONFIDENCE_THRESHOLD then
            ⟨.result best_result.label best_result.confidence
              best_result.model, 200⟩
          else
            ⟨.result ("Unable to interpret sign (Low Confidence: " ++
                best_result.label ++ "?)")
              best_result.confidence best_result.model, 200⟩

/-! ### The `/api/text-to-speech` handler (app.py lines 235-286)

The handler writes the synthesized MP3 to the module-level constant
filename `"temp_audio.mp3"`, reads it back, and removes it only after a
successful read; any exception jumps to the `except` block, which returns
a 500 error without removing the file.  The filesystem is modeled as an
association list of filename/contents, threaded through the handler; gTTS
and the file read are external and may raise (`none`). -/

/-- The fixed temporary filename of app.py line 264 — a module constant,
identical for every request. -/
def temp_filename : String := "temp_audio.mp3"

/-- External effects of the handler: gTTS synthesis+save (`none`: the
constructor or `tts.save` raises before the file is written) and the
read-back of the written audio (`none`: `open`/`read` raises). -/
structure GTTSOps where
  synth : String → String → Option (List Nat)
  readBack : List Nat → Option (List Nat)

/-- Write (or overwrite) a file in the modeled filesystem. -/
def fsWrite (fs : List (String × List Nat)) (name : String)
    (content : List Nat) : List (String × List Nat) :=
  (name, content) :: fs.filter (fun p => p.1 ≠ name)

/-- `os.remove`: drop a file from the modeled filesystem. -/
def fsRemove (fs : List (String × List Nat)) (name : String) :
    List (String × List Nat) :=
  fs.filter (fun p => p.1 ≠ name)

/-- Python `language.split('-')[0]` guarded by `'-' in language`
(app.py lines 260-261): the characters before the first dash. -/
def stripRegion (language : String) : String :=
  if language.data.contains '-' then
    ⟨language.data.takeWhile (fun c => c ≠ '-')⟩
  else language

/-- The `/api/text-to-speech` handler (app.py lines 235-286): returns the
response and the filesystem after the request.  On the success path the
temp file is written, read back and removed; on an exception after the
write (`readBack = none`) control jumps to `except`, which returns 500
with the temp file still present. -/
def text_to_speech_endpoint (tts : GTTSOps) (fs : List (String × List Nat))
    (data : Option (List (String × String))) :
    HttpResponse × List (String × List Nat) :=
  match data with
  | none => (⟨.error "Text and language are required", 400⟩, fs)
  | some d =>
    match d.lookup "text", d.lookup "language" with
    | some text, some language =>
      let language := stripRegion language
      match tts.synth text language with
      | none =>
        -- gTTS raised before tts.save wrote the file
        (⟨.error "Internal server error processing text-to-speech", 500⟩, fs)
      | some audio =>
        let fs₁ := fsWrite fs temp_filename audio
        match tts.readBack audio with
        | none =>
          -- the read raised: except path, temp file left behind
          (⟨.error "Internal server error processing text-to-speech", 500⟩, fs₁)
        | some bytes =>
          (⟨.audio ("data:audio/mpeg;base64," ++ String.mk (b64encode bytes)),
            200⟩, fsRemove fs₁ temp_filename)
    | _, _ => (⟨.error "Text and language are required", 400⟩, fs)

/-! ### Lemmas about the prefix stripping -/

/-- `List.isPrefixOf` agrees with the existence of a completing suffix. -/
theorem isPrefixOf_spec (l₁ l₂ : List Char) :
    l₁.isPrefixOf l₂ = true ↔ ∃ t, l₁ ++ t = l₂ := by
  induction l₁ generalizing l₂ with
  | nil => simp [List.isPrefixOf]
  | cons a as ih =>
    cases l₂ with
    | nil => simp [List.isPrefixOf]
    | cons b bs =>
      simp only [List.isPrefixOf, Bool.and_eq_true, beq_iff_eq, ih,
        List.cons_append, List.cons.injEq]
      constructor
      · rintro ⟨rfl, t, rfl⟩
        exact ⟨t, rfl, rfl⟩
      · rintro ⟨t, rfl, rfl⟩
        exact ⟨rfl, t, rfl⟩

/-- The comma of the separator sits only at its last index. -/
theorem sep_getElem_ne_comma : ∀ k, k < 6 → SEP[k]? ≠ some ',' := by decide

/-- The separator cannot start inside a comma-free segment that is
followed by the separator: its seventh character would have to be a comma
strictly before the separator's own comma. -/
theorem sep_not_prefixOf_mid (c : Char) (a b : List Char)
    (hc : ',' ∉ c :: a) :
    ¬ SEP.isPrefixOf (c :: (a ++ (SEP ++ b))) = true := by
  intro h
  obtain ⟨t, ht⟩ := (isPrefixOf_spec _ _).mp h
  have h6 : (SEP ++ t)[6]? = some ',' := by
    rw [List.getElem?_append_left (by decide)]
    decide
  rw [ht] at h6
  have h6' : (a ++ (SEP ++ b))[5]? = some ',' := by
    simpa using h6
  rcases Nat.lt_or_ge 5 a.length with h5 | h5
  · rw [List.getElem?_append_left h5] at h6'
    exact hc (List.mem_cons_of_mem _ (List.getElem?_mem h6'))
  · rw [List.getElem?_append_right h5,
      List.getElem?_append_left (by simp [SEP]; omega)] at h6'
    exact sep_getElem_ne_comma (5 - a.length) (by omega) h6'

/-- Splitting a comma-free string produces a single part: the separator
contains a comma, so it occurs nowhere. -/
theorem splitB64Aux_no_comma :
    ∀ (fuel : Nat) (l : List Char), l.length ≤ fuel → ',' ∉ l →
      splitB64Aux fuel l = [l]
  | fuel, [], _, _ => by cases fuel <;> rfl
  | 0, c :: rest, hl, _ => by simp at hl
  | fuel + 1, c :: rest, hl, hc => by
    have hnp : ¬ SEP.isPrefixOf (c :: rest) = true := by
      intro h
      obtain ⟨t, ht⟩ := (isPrefixOf_spec _ _).mp h
      exact hc (ht ▸ List.mem_append_left t (by decide))
    simp only [splitB64Aux]
    rw [if_neg hnp,
      splitB64Aux_no_comma fuel rest (by simpa using hl)
        (fun hm => hc (List.mem_cons_of_mem _ hm))]

/-- Splitting `a ++ 'base64,' ++ b` with `a` and `b` comma-free yields
exactly the two parts `a` and `b`. -/
theorem splitB64Aux_pair :
    ∀ (fuel : Nat) (a b : List Char),
      (a ++ (SEP ++ b)).length ≤ fuel → ',' ∉ a → ',' ∉ b →
      splitB64Aux fuel (a ++ (SEP ++ b)) = [a, b]
  | 0, a, b, hl, _, _ => by simp [SEP] at hl
  | fuel + 1, [], b, hl, _, hb => by
    have hfuel : b.length ≤ fuel := by simp [SEP] at hl; omega
    simp only [List.nil_append, SEP, List.cons_append, List.append_eq,
      splitB64Aux, List.isPrefixOf, beq_self_eq_true, Bool.true_and,
      List.drop_succ_cons, List.drop_zero, if_true]
    rw [splitB64Aux_no_comma fuel b hfuel hb]
  | fuel + 1, c :: a', b, hl, ha, hb => by
    simp only [List.cons_append, List.append_eq, splitB64Aux]
    rw [if_neg (sep_not_prefixOf_mid c a' b ha),
      splitB64Aux_pair fuel a' b (by simp at hl ⊢; omega)
        (fun hm => ha (List.mem_cons_of_mem _ hm)) hb]

/-- A comma-free payload is left untouched by the prefix stripping. -/
theorem pyStripB64_no_comma (s : String) (h : ',' ∉ s.data) :
    pyStripB64 s = s := by
  unfold pyStripB64
  rw [show splitB64 s.data = [s.data] from
    splitB64Aux_no_comma s.data.length s.data le_rfl h]

/-- Stripping a data-URL prefix ending in `'base64,'` from a comma-free
payload recovers exactly the payload. -/
theorem pyStripB64_strip (a b : List Char) (ha : ',' ∉ a) (hb : ',' ∉ b) :
    pyStripB64 ⟨a ++ (SEP ++ b)⟩ = ⟨b⟩ := by
  unfold pyStripB64
  rw [show (String.mk (a ++ (SEP ++ b))).data = a ++ (SEP ++ b) from rfl,
    show splitB64 (a ++ (SEP ++ b)) = [a, b] from
      splitB64Aux_pair _ _ _ le_rfl ha hb]

/-- The base64 alphabet contains no comma. -/
theorem b64char_ne_comma (n : Nat) : b64char n ≠ ',' := by
  unfold b64char
  cases h : B64CHARS.get? n with
  | none => decide
  | some c =>
    have hmem : c ∈ B64CHARS := List.get?_mem h
    simp only [Option.getD_some]
    intro hEq
    rw [hEq] at hmem
    exact absurd hmem (by decide)

/-- A base64-encoded payload contains no comma. -/
theorem b64encode_no_comma : ∀ (bs : List Nat), ',' ∉ b64encode bs
  | [] => by simp [b64encode]
  | [a] => by
    intro hm
    rcases List.mem_cons.mp hm with h | hm
    · exact b64char_ne_comma _ h.symm
    rcases List.mem_cons.mp hm with h | hm
    · exact b64char_ne_comma _ h.symm
    · simp at hm
  | [a, b] => by
    intro hm
    rcases List.mem_cons.mp hm with h | hm
    · exact b64char_ne_comma _ h.symm
    rcases List.mem_cons.mp hm with h | hm
    · exact b64char_ne_comma _ h.symm
    rcases List.mem_cons.mp hm with h | hm
    · exact b64char_ne_comma _ h.symm
    · simp at hm
  | a :: b :: c :: rest => by
    intro hm
    rcases List.mem_cons.mp hm with h | hm
    · exact b64char_ne_comma _ h.symm
    rcases List.mem_cons.mp hm with h | hm
    · exact b64char_ne_comma _ h.symm
    rcases List.mem_cons.mp hm with h | hm
    · exact b64char_ne_comma _ h.symm
    rcases List.mem_cons.mp hm with h | hm
    · exact b64char_ne_comma _ h.symm
    · exact b64encode_no_comma rest hm

/-! ### Lemmas about the arbiter `max(results, key=...)` -/

/-- The fold of Python `max` returns the first element attaining the
maximal confidence: the list decomposes around the returned element, with
everything before it strictly smaller and nothing anywhere greater. -/
theorem foldl_maxStep_first_max :
    ∀ (xs : List SResult) (x : SResult),
      ∃ pre post,
        x :: xs = pre ++ (xs.foldl maxStep x) :: post ∧
        (∀ y ∈ pre, y.confidence < (xs.foldl maxStep x).confidence) ∧
        (∀ y ∈ x :: xs, y.confidence ≤ (xs.foldl maxStep x).confidence) := by
  intro xs
  induction xs with
  | nil =>
    intro x
    exact ⟨[], [], rfl, by simp, by simp⟩
  | cons y ys ih =>
    intro x
    rw [List.foldl_cons]
    by_cases hxy : x.confidence < y.confidence
    · have hstep : maxStep x y = y := if_pos hxy
      rw [hstep]
      obtain ⟨pre, post, heq, hpre, hall⟩ := ih y
      cases pre with
      | nil =>
        simp only [List.nil_append] at heq
        refine ⟨[x], post, ?_, ?_, ?_⟩
        · rw [List.singleton_append, heq]
        · intro z hz
          rw [List.mem_singleton] at hz
          subst hz
          calc z.confidence < y.confidence := hxy
            _ ≤ (ys.foldl maxStep y).confidence := hall y (List.mem_cons_self _ _)
        · intro z hz
          rcases List.mem_cons.mp hz with rfl | hz
          · exact le_of_lt (lt_of_lt_of_le hxy (hall y (List.mem_cons_self _ _)))
          · exact hall z hz
      | cons p pre' =>
        rw [List.cons_append] at heq
        injection heq with h1 h2
        subst h1
        refine ⟨x :: y :: pre', post, ?_, ?_, ?_⟩
        · simp only [List.cons_append]
          exact congrArg (fun l => x :: y :: l) h2
        · intro z hz
          rcases List.mem_cons.mp hz with rfl | hz
          · calc z.confidence < y.confidence := hxy
              _ < (ys.foldl maxStep y).confidence :=
                hpre y (List.mem_cons_self _ _)
          · rcases List.mem_cons.mp hz with rfl | hz
            · exact hpre z (List.mem_cons_self _ _)
            · exact hpre z (List.mem_cons_of_mem _ hz)
        · intro z hz
          rcases List.mem_cons.mp hz with rfl | hz
          · exact le_of_lt
              (lt_of_lt_of_le hxy (hall y (List.mem_cons_self _ _)))
          · exact hall z hz
    · have hstep : maxStep x y = x := if_neg hxy
      rw [hstep]
      push_neg at hxy
      obtain ⟨pre, post, heq, hpre, hall⟩ := ih x
      cases pre with
      | nil =>
        simp only [List.nil_append] at heq
        injection heq with h1 h2
        refine ⟨[], y :: post, ?_, ?_, ?_⟩
        · rw [List.nil_append, ← h1, ← h2]
        · simp
        · intro z hz
          rcases List.mem_cons.mp hz with rfl | hz
          · exact hall z (List.mem_cons_self _ _)
          · rcases List.mem_cons.mp hz with rfl | hz
            · exact le_trans hxy (hall x (List.mem_cons_self _ _))
            · exact hall z (List.mem_cons_of_mem _ hz)
      | cons p pre' =>
        rw [List.cons_append] at heq
        injection heq with h1 h2
        subst h1
        refine ⟨x :: y :: pre', post, ?_, ?_, ?_⟩
        · simp only [List.cons_append]
          exact congrArg (fun l => x :: y :: l) h2
        · intro z hz
          rcases List.mem_cons.mp hz with rfl | hz
          · exact hpre z (List.mem_cons_self _ _)
          · rcases List.mem_cons.mp hz with rfl | hz
            · exact lt_of_le_of_lt hxy (hpre x (List.mem_cons_self _ _))
            · exact hpre z (List.mem_cons_of_mem _ hz)
        · intro z hz
          rcases List.mem_cons.mp hz with rfl | hz
          · exact hall z (List.mem_cons_self _ _)
          · rcases List.mem_cons.mp hz with rfl | hz
            · exact le_trans hxy (hall x (List.mem_cons_self _ _))
            · exact hall z (List.mem_cons_of_mem _ hz)

/-- `pyMaxBy` on a non-empty list: the decomposition form of
`foldl_maxStep_first_max` for the arbiter. -/
theorem pyMaxBy_first_max (l : List SResult) (h : l ≠ []) :
    ∃ best pre post,
      pyMaxBy l = some best ∧
      l = pre ++ best :: post ∧
      (∀ y ∈ pre, y.confidence < best.confidence) ∧
      (∀ y ∈ l, y.confidence ≤ best.confidence) := by
  cases l with
  | nil => exact absurd rfl h
  | cons x xs =>
    obtain ⟨pre, post, heq, hpre, hall⟩ := foldl_maxStep_first_max xs x
    exact ⟨xs.foldl maxStep x, pre, post, rfl, heq, hpre, hall⟩

/-- The arbiter's choice is one of the collected results. -/
theorem pyMaxBy_mem (l : List SResult) (best : SResult)
    (h : pyMaxBy l = some best) : best ∈ l := by
  cases l with
  | nil => exact absurd h (by simp [pyMaxBy])
  | cons x xs =>
    obtain ⟨best', pre, post, hEq, hdec, _, _⟩ :=
      pyMaxBy_first_max (x :: xs) (by simp)
    rw [h] at hEq
    injection hEq with hEq
    subst hEq
    rw [hdec]
    exact List.mem_append_right _ (List.mem_cons_self _ _)

/-! ### Lemmas about one iteration of the model loop -/

/-- `np.argmax` only succeeds on a non-empty row, on which `np.max`
succeeds as well. -/
theorem npMax_isSome_of_npArgmax (row : List ℚ) (idx : Nat)
    (h : npArgmax row = some idx) : ∃ c, npMax row = some c := by
  cases row with
  | nil => exact absurd h (by simp [npArgmax])
  | cons x xs => exact ⟨xs.foldl max x, rfl⟩

/-- Inversion of a successful loop iteration: the appended result carries
the symbol set's name, a label read from its alphabet at the in-bounds
argmax index, and the row's maximum as confidence. -/
theorem stepModel_some_spec (ops : ImageOps) (image_bytes : List Nat)
    (name : String) (m? : Option KerasModel) (r : SResult)
    (h : stepModel ops image_bytes (name, m?) = some r) :
    r.model = name ∧ r.label ∈ labelMapGet name ∧
    ∃ m t row rest idx,
      m? = some m ∧
      preprocess_image_for_keras ops image_bytes name = some t ∧
      m.predict t = some (row :: rest) ∧
      npMax row = some r.confidence ∧
      npArgmax row = some idx ∧
      ∃ hidx : idx < (labelMapGet name).length,
        r.label = (labelMapGet name).get ⟨idx, hidx⟩ := by
  cases m? with
  | none => simp [stepModel] at h
  | some m =>
    cases hp : preprocess_image_for_keras ops image_bytes name with
    | none => simp [stepModel, hp] at h
    | some t =>
      cases hpred : m.predict t with
      | none => simp [stepModel, hp, hpred] at h
      | some preds =>
        cases preds with
        | nil => simp [stepModel, hp, hpred] at h
        | cons row rest =>
          cases hmax : npMax row with
          | none => simp [stepModel, hp, hpred, hmax] at h
          | some conf =>
            cases harg : npArgmax row with
            | none => simp [stepModel, hp, hpred, hmax, harg] at h
            | some idx =>
              simp only [stepModel, hp, hpred, hmax, harg] at h
              by_cases hidx : idx < (labelMapGet name).length
              · rw [dif_pos hidx] at h
                injection h with h
                subst h
                exact ⟨rfl, List.get_mem _ _ _,
                  m, t, row, rest, idx, rfl, rfl, hpred, hmax, harg, hidx, rfl⟩
              · rw [dif_neg hidx] at h
                exact absurd h (by simp)

/-- A loop iteration whose preprocessing fails, whose inference raises,
whose prediction batch is empty, or whose argmax index falls outside the
alphabet contributes nothing. -/
theorem stepModel_none_of_skip (ops : ImageOps) (image_bytes : List Nat)
    (name : String) (m : KerasModel)
    (hfail :
      preprocess_image_for_keras ops image_bytes name = none ∨
      (∃ t, preprocess_image_for_keras ops image_bytes name = some t ∧
        m.predict t = none) ∨
      (∃ t row rest idx,
        preprocess_image_for_keras ops image_bytes name = some t ∧
        m.predict t = some (row :: rest) ∧
        npArgmax row = some idx ∧
        (labelMapGet name).length ≤ idx)) :
    stepModel ops image_bytes (name, some m) = none := by
  rcases hfail with hp | ⟨t, hp, hpred⟩ | ⟨t, row, rest, idx, hp, hpred, harg, hge⟩
  · simp [stepModel, hp]
  · simp [stepModel, hp, hpred]
  · obtain ⟨c, hmax⟩ := npMax_isSome_of_npArgmax row idx harg
    simp only [stepModel, hp, hpred, hmax, harg]
    rw [dif_neg (not_lt.mpr hge)]

/-! ### Lemmas about numpy arrays and the preprocessing pipeline -/

/-- `mapScalars` pushes into an `arr` node elementwise. -/
theorem NDArray.mapScalars_arr (f : ℚ → ℚ) (xs : List NDArray) :
    NDArray.mapScalars f (.arr xs) = .arr (xs.map (NDArray.mapScalars f)) := by
  induction xs with
  | nil => simp only [NDArray.mapScalars, List.map_nil]
  | cons x xs ih =>
    simp only [NDArray.mapScalars, List.map_cons]
    rw [ih]

/-- `expandLast` pushes into an `arr` node elementwise. -/
theorem NDArray.expandLast_arr (xs : List NDArray) :
    NDArray.expandLast (.arr xs) = .arr (xs.map NDArray.expandLast) := by
  induction xs with
  | nil => simp only [NDArray.expandLast, List.map_nil]
  | cons x xs ih =>
    simp only [NDArray.expandLast, List.map_cons]
    rw [ih]

/-- `mapScalars` preserves the shape. -/
theorem NDArray.shape_mapScalars (f : ℚ → ℚ) :
    ∀ a : NDArray, (NDArray.mapScalars f a).shape = a.shape
  | .scalar _ => by simp only [NDArray.mapScalars, NDArray.shape]
  | .arr [] => by simp only [NDArray.mapScalars]
  | .arr (x :: xs) => by
    rw [NDArray.mapScalars_arr, List.map_cons]
    simp only [NDArray.shape]
    rw [List.length_map, NDArray.shape_mapScalars f x]

/-- The shape of an `arr` node built over a non-empty range. -/
theorem NDArray.shape_arr_map_range (n : Nat) (hn : 0 < n)
    (f : Nat → NDArray) :
    (NDArray.arr ((List.range n).map f)).shape = n :: (f 0).shape := by
  cases n with
  | zero => exact absurd hn (by simp)
  | succ m =>
    rw [List.range_succ_eq_map, List.map_cons]
    simp only [NDArray.shape]
    rw [List.length_map, List.length_map, List.length_range]

/-- Entries of an `arr` node: the union over its slices. -/
theorem NDArray.mem_entries_arr (v : ℚ) (xs : List NDArray) :
    v ∈ (NDArray.arr xs).entries ↔ ∃ x ∈ xs, v ∈ x.entries := by
  induction xs with
  | nil => simp [NDArray.entries]
  | cons x xs ih =>
    simp only [NDArray.entries, List.mem_append, ih]
    constructor
    · rintro (h | ⟨z, hz, hv⟩)
      · exact ⟨x, List.mem_cons_self _ _, h⟩
      · exact ⟨z, List.mem_cons_of_mem _ hz, hv⟩
    · rintro ⟨z, hz, hv⟩
      rcases List.mem_cons.mp hz with rfl | hz
      · exact Or.inl hv
      · exact Or.inr ⟨z, hz, hv⟩

/-- Entries after `mapScalars`: the mapped entries. -/
theorem NDArray.entries_mapScalars (f : ℚ → ℚ) :
    ∀ a : NDArray, (NDArray.mapScalars f a).entries = a.entries.map f
  | .scalar _ => by
    simp only [NDArray.mapScalars, NDArray.entries, List.map_cons, List.map_nil]
  | .arr [] => by
    simp only [NDArray.mapScalars, NDArray.entries, List.map_nil]
  | .arr (x :: xs) => by
    rw [NDArray.mapScalars_arr, List.map_cons]
    simp only [NDArray.entries]
    rw [← NDArray.mapScalars_arr, NDArray.entries_mapScalars f x,
      NDArray.entries_mapScalars f (.arr xs), List.map_append]

/-- `expandLast` preserves the entries. -/
theorem NDArray.entries_expandLast :
    ∀ a : NDArray, (NDArray.expandLast a).entries = a.entries
  | .scalar v => by
    simp only [NDArray.expandLast, NDArray.entries, List.append_nil]
  | .arr [] => by simp only [NDArray.expandLast]
  | .arr (x :: xs) => by
    rw [NDArray.expandLast_arr, List.map_cons]
    simp only [NDArray.entries]
    rw [← NDArray.expandLast_arr, NDArray.entries_expandLast x,
      NDArray.entries_expandLast (.arr xs)]

/-- Shape of the grayscale grid after appending the channel axis. -/
theorem shape_expandLast_grid (h w : Nat) (hh : 0 < h) (hw : 0 < w)
    (g : Nat → Nat → ℚ) :
    (NDArray.expandLast (.arr ((List.range h).map fun y =>
      .arr ((List.range w).map fun x => .scalar (g y x))))).shape =
      [h, w, 1] := by
  rw [NDArray.expandLast_arr, List.map_map,
    NDArray.shape_arr_map_range h hh]
  simp only [Function.comp_apply]
  rw [NDArray.expandLast_arr, List.map_map,
    NDArray.shape_arr_map_range w hw]
  simp only [Function.comp_apply, NDArray.expandLast, NDArray.shape,
    List.length_nil, Nat.zero_add]

/-- Shape of a three-channel color grid. -/
theorem shape_rgb_grid (h w : Nat) (hh : 0 < h) (hw : 0 < w)
    (g1 g2 g3 : Nat → Nat → ℚ) :
    (NDArray.arr ((List.range h).map fun y =>
      .arr ((List.range w).map fun x =>
        .arr [.scalar (g1 y x), .scalar (g2 y x), .scalar (g3 y x)]))).shape =
      [h, w, 3] := by
  rw [NDArray.shape_arr_map_range h hh, NDArray.shape_arr_map_range w hw]
  simp only [NDArray.shape, List.length_cons, List.length_nil]

/-- Every entry of a scalar grid is one of its generator's values. -/
theorem entries_grid_mem (h w : Nat) (g : Nat → Nat → ℚ) (u : ℚ)
    (hu : u ∈ (NDArray.arr ((List.range h).map fun y =>
      .arr ((List.range w).map fun x => .scalar (g y x)))).entries) :
    ∃ y x, u = g y x := by
  rw [NDArray.mem_entries_arr] at hu
  obtain ⟨row, hrow, hu⟩ := hu
  obtain ⟨y, _, rfl⟩ := List.mem_map.mp hrow
  rw [NDArray.mem_entries_arr] at hu
  obtain ⟨cell, hcell, hu⟩ := hu
  obtain ⟨x, _, rfl⟩ := List.mem_map.mp hcell
  simp only [NDArray.entries, List.mem_singleton] at hu
  exact ⟨y, x, hu⟩

/-- Every entry of a three-channel color grid is one of the generators'
values. -/
theorem entries_rgb_grid_mem (h w : Nat) (g1 g2 g3 : Nat → Nat → ℚ) (u : ℚ)
    (hu : u ∈ (NDArray.arr ((List.range h).map fun y =>
      .arr ((List.range w).map fun x =>
        .arr [.scalar (g1 y x), .scalar (g2 y x),
          .scalar (g3 y x)]))).entries) :
    ∃ y x, u = g1 y x ∨ u = g2 y x ∨ u = g3 y x := by
  rw [NDArray.mem_entries_arr] at hu
  obtain ⟨row, hrow, hu⟩ := hu
  obtain ⟨y, _, rfl⟩ := List.mem_map.mp hrow
  rw [NDArray.mem_entries_arr] at hu
  obtain ⟨cell, hcell, hu⟩ := hu
  obtain ⟨x, _, rfl⟩ := List.mem_map.mp hcell
  rw [NDArray.mem_entries_arr] at hu
  obtain ⟨s, hs, hu⟩ := hu
  refine ⟨y, x, ?_⟩
  rcases List.mem_cons.mp hs with rfl | hs
  · simp only [NDArray.entries, List.mem_singleton] at hu
    exact Or.inl hu
  rcases List.mem_cons.mp hs with rfl | hs
  · simp only [NDArray.entries, List.mem_singleton] at hu
    exact Or.inr (Or.inl hu)
  rcases List.mem_cons.mp hs with rfl | hs
  · simp only [NDArray.entries, List.mem_singleton] at hu
    exact Or.inr (Or.inr hu)
  · exact absurd hs (List.not_mem_nil _)

/-- The leading batch axis adds a dimension of size 1. -/
theorem shape_expandFirst (a : NDArray) :
    (NDArray.expandFirst a).shape = 1 :: a.shape := by
  simp only [NDArray.expandFirst, NDArray.shape, List.length_nil,
    Nat.zero_add]

/-- Entries of the final tensor: the grid entries divided by 255. -/
theorem entries_pipeline (a : NDArray) (v : ℚ)
    (hv : v ∈ (NDArray.expandFirst
      (a.mapScalars (fun u => u / 255))).entries) :
    ∃ u ∈ a.entries, v = u / 255 := by
  simp only [NDArray.expandFirst, NDArray.entries, List.append_nil] at hv
  rw [NDArray.entries_mapScalars] at hv
  obtain ⟨u, hu, rfl⟩ := List.mem_map.mp hv
  exact ⟨u, hu, rfl⟩

/-- A `uint8` channel value divided by 255 lies in `[0, 1]`. -/
theorem div255_bounds (p : Nat) (hp : p ≤ 255) :
    0 ≤ (p : ℚ) / 255 ∧ (p : ℚ) / 255 ≤ 1 := by
  constructor
  · positivity
  · rw [div_le_one (by norm_num : (0 : ℚ) < 255)]
    exact_mod_cast hp

/-- The grayscale (`asl`) pipeline on any decodable image: batch 1,
28 × 28 spatial, 1 channel, every entry a `uint8` luminance divided by
255. -/
theorem preprocess_asl_spec (ops : ImageOps) (image_bytes : List Nat)
    (img : PILImage) (h : ops.decode image_bytes = some img) :
    ∃ t, preprocess_image_for_keras ops image_bytes "asl" = some t ∧
      t.shape = [1, 28, 28, 1] ∧
      ∀ v ∈ t.entries,
        (∃ p : Nat, p ≤ 255 ∧ v = (p : ℚ) / 255) ∧ 0 ≤ v ∧ v ≤ 1 := by
  refine ⟨NDArray.expandFirst
    ((NDArray.expandLast (npOfGrayImg (resize ops img 28 28))).mapScalars
      (fun v => v / 255)), ?_, ?_, ?_⟩
  · unfold preprocess_image_for_keras
    rw [h]
    rfl
  · rw [shape_expandFirst, NDArray.shape_mapScalars,
      show npOfGrayImg (resize ops img 28 28) =
        .arr ((List.range 28).map fun y =>
          .arr ((List.range 28).map fun x =>
            .scalar ((lumaOf ((resize ops img 28 28).pix y x)).val : ℚ)))
      from rfl,
      shape_expandLast_grid 28 28 (by norm_num) (by norm_num)]
  · intro v hv
    obtain ⟨u, hu, rfl⟩ := entries_pipeline _ v hv
    rw [NDArray.entries_expandLast] at hu
    rw [show npOfGrayImg (resize ops img 28 28) =
        .arr ((List.range 28).map fun y =>
          .arr ((List.range 28).map fun x =>
            .scalar ((lumaOf ((resize ops img 28 28).pix y x)).val : ℚ)))
      from rfl] at hu
    obtain ⟨y, x, rfl⟩ := entries_grid_mem 28 28 _ u hu
    have hle : (lumaOf ((resize ops img 28 28).pix y x)).val ≤ 255 := by
      have := (lumaOf ((resize ops img 28 28).pix y x)).isLt
      omega
    exact ⟨⟨_, hle, rfl⟩, div255_bounds _ hle⟩

/-- The color (`digit`/`isl`) pipeline on any decodable image: batch 1,
32 × 32 spatial, 3 channels, every entry a `uint8` channel value divided
by 255. -/
theorem preprocess_color_spec (ops : ImageOps) (image_bytes : List Nat)
    (img : PILImage) (h : ops.decode image_bytes = some img)
    (model_type : String)
    (hmt : model_type = "digit" ∨ model_type = "isl") :
    ∃ t, preprocess_image_for_keras ops image_bytes model_type = some t ∧
      t.shape = [1, 32, 32, 3] ∧
      ∀ v ∈ t.entries,
        (∃ p : Nat, p ≤ 255 ∧ v = (p : ℚ) / 255) ∧ 0 ≤ v ∧ v ≤ 1 := by
  have hne : ¬ model_type = "asl" := by
    rcases hmt with rfl | rfl <;> decide
  refine ⟨NDArray.expandFirst
    ((npOfRGBImg (resize ops img 32 32)).mapScalars
      (fun v => v / 255)), ?_, ?_, ?_⟩
  · unfold preprocess_image_for_keras
    rw [h]
    simp only [hne, hmt, if_false, if_true, ite_false, ite_true]
  · rw [shape_expandFirst, NDArray.shape_mapScalars,
      show npOfRGBImg (resize ops img 32 32) =
        .arr ((List.range 32).map fun y =>
          .arr ((List.range 32).map fun x =>
            .arr [.scalar (((resize ops img 32 32).pix y x).1.val : ℚ),
              .scalar (((resize ops img 32 32).pix y x).2.1.val : ℚ),
              .scalar (((resize ops img 32 32).pix y x).2.2.val : ℚ)]))
      from rfl,
      shape_rgb_grid 32 32 (by norm_num) (by norm_num)]
  · intro v hv
    obtain ⟨u, hu, rfl⟩ := entries_pipeline _ v hv
    rw [show npOfRGBImg (resize ops img 32 32) =
        .arr ((List.range 32).map fun y =>
          .arr ((List.range 32).map fun x =>
            .arr [.scalar (((resize ops img 32 32).pix y x).1.val : ℚ),
              .scalar (((resize ops img 32 32).pix y x).2.1.val : ℚ),
              .scalar (((resize ops img 32 32).pix y x).2.2.val : ℚ)]))
      from rfl] at hu
    obtain ⟨y, x, hcase⟩ := entries_rgb_grid_mem 32 32 _ _ _ u hu
    have hb1 : ((resize ops img 32 32).pix y x).1.val ≤ 255 := by
      have := ((resize ops img 32 32).pix y x).1.isLt; omega
    have hb2 : ((resize ops img 32 32).pix y x).2.1.val ≤ 255 := by
      have := ((resize ops img 32 32).pix y x).2.1.isLt; omega
    have hb3 : ((resize ops img 32 32).pix y x).2.2.val ≤ 255 := by
      have := ((resize ops img 32 32).pix y x).2.2.isLt; omega
    rcases hcase with rfl | rfl | rfl
    · exact ⟨⟨_, hb1, rfl⟩, div255_bounds _ hb1⟩
    · exact ⟨⟨_, hb2, rfl⟩, div255_bounds _ hb2⟩
    · exact ⟨⟨_, hb3, rfl⟩, div255_bounds _ hb3⟩

/-! ### Concrete fixtures used by the witnesses -/

/-- A constant 1 × 1 black image. -/
def constImg : PILImage := ⟨1, 1, fun _ _ => (0, 0, 0)⟩

/-- PIL primitives that decode everything to `constImg`. -/
def demoOps : ImageOps := ⟨fun _ => some constImg, fun _ _ _ _ _ => (0, 0, 0)⟩

/-- PIL primitives whose decoding always fails. -/
def demoFailOps : ImageOps := ⟨fun _ => none, fun _ _ _ _ _ => (0, 0, 0)⟩

/-- `0.6` as an explicitly normalized rational (kernel-computable). -/
def q35 : ℚ := ⟨3, 5, by norm_num, by norm_num⟩

/-- `0.2` as an explicitly normalized rational. -/
def q15 : ℚ := ⟨1, 5, by norm_num, by norm_num⟩

/-- `0.4` as an explicitly normalized rational. -/
def q25 : ℚ := ⟨2, 5, by norm_num, by norm_num⟩

/-- `q35` is exactly the acceptance threshold 0.6. -/
theorem q35_eq_threshold : q35 = KERAS_CONFIDENCE_THRESHOLD := by
  rw [show KERAS_CONFIDENCE_THRESHOLD = 3 / 5 by
      unfold KERAS_CONFIDENCE_THRESHOLD; norm_num,
    show q35 = Rat.divInt 3 5 from Rat.mk'_eq_divInt, Rat.divInt_eq_div]
  norm_num

/-- `q25` is strictly below the acceptance threshold. -/
theorem q25_lt_threshold : q25 < KERAS_CONFIDENCE_THRESHOLD := by
  rw [show KERAS_CONFIDENCE_THRESHOLD = 3 / 5 by
      unfold KERAS_CONFIDENCE_THRESHOLD; norm_num,
    show q25 = Rat.divInt 2 5 from Rat.mk'_eq_divInt, Rat.divInt_eq_div]
  norm_num

/-- A classifier answering `[0.6, 0.2]` on every input. -/
def demoModel : KerasModel := ⟨fun _ => some [[q35, q15]]⟩

/-- A registry holding only the `digit` classifier `demoModel`. -/
def demoModels : List (String × Option KerasModel) := [("digit", some demoModel)]

/-- A classifier answering `[0.2, 0.4]` on every input (low confidence). -/
def demoLowModel : KerasModel := ⟨fun _ => some [[q15, q25]]⟩

/-- A registry holding only the low-confidence `digit` classifier. -/
def demoLowModels : List (String × Option KerasModel) :=
  [("digit", some demoLowModel)]

/-- A base64 decoder accepting everything as the empty byte list. -/
def demoB64 : String → Option (List Nat) := fun _ => some []

/-! ### The claims -/

/-- C1: for every non-empty candidate list produced by the classification
loop, the arbiter `max(results, key=...)` picks a candidate of maximal
confidence, and on a tie the one occurring earlier in the candidate list —
which is built in the configured SymbolSet iteration order (`digit`,
`asl`, `isl`) — wins: everything before the winner is strictly below it,
and nothing exceeds it.  The arbiter is a pure function, hence
deterministic. -/
theorem claim_C1_arbiter_first_max (ops : ImageOps)
    (models : List (String × Option KerasModel)) (image_bytes : List Nat)
    (h : collectResults ops models image_bytes ≠ []) :
    ∃ best pre post,
      pyMaxBy (collectResults ops models image_bytes) = some best ∧
      collectResults ops models image_bytes = pre ++ best :: post ∧
      (∀ y ∈ pre, y.confidence < best.confidence) ∧
      (∀ y ∈ collectResults ops models image_bytes,
        y.confidence ≤ best.confidence) :=
  pyMaxBy_first_max _ h

/-- Witness for C1 at a concrete registry. -/
theorem claim_C1_witness :
    collectResults demoOps demoModels [] ≠ [] ∧
    (∃ best pre post,
      pyMaxBy (collectResults demoOps demoModels []) = some best ∧
      collectResults demoOps demoModels [] = pre ++ best :: post ∧
      (∀ y ∈ pre, y.confidence < best.confidence) ∧
      (∀ y ∈ collectResults demoOps demoModels [],
        y.confidence ≤ best.confidence)) :=
  ⟨by decide, claim_C1_arbiter_first_max demoOps demoModels [] (by decide)⟩

/-- C2: when the arbiter produces a winner, a winning confidence exactly
equal to the 0.6 threshold is accepted (the bare label is returned), while
a winning confidence strictly below 0.6 still returns the best guess with
its actual confidence and model, only wrapped in a low-confidence text —
it is never dropped. -/
theorem claim_C2_threshold (ops : ImageOps)
    (models : List (String × Option KerasModel))
    (decodeB64 : String → Option (List Nat))
    (d : List (String × String)) (image_data : String)
    (image_bytes : List Nat) (best : SResult)
    (hd : d.lookup "image" = some image_data)
    (hdec : decodeB64 (pyStripB64 image_data) = some image_bytes)
    (hbest : pyMaxBy (collectResults ops models image_bytes) = some best) :
    (best.confidence = KERAS_CONFIDENCE_THRESHOLD →
      interpret_sign ops models decodeB64 (some d) =
        ⟨.result best.label best.confidence best.model, 200⟩) ∧
    (best.confidence < KERAS_CONFIDENCE_THRESHOLD →
      interpret_sign ops models decodeB64 (some d) =
        ⟨.result ("Unable to interpret sign (Low Confidence: " ++
          best.label ++ "?)") best.confidence best.model, 200⟩) := by
  constructor
  · intro hEq
    simp only [interpret_sign, hd, hdec, hbest]
    rw [if_pos (by rw [hEq] : best.confidence ≥ KERAS_CONFIDENCE_THRESHOLD)]
  · intro hlt
    simp only [interpret_sign, hd, hdec, hbest]
    rw [if_neg (not_le.mpr hlt)]

/-- Witness for C2: a winner at exactly 0.6 is accepted. -/
theorem claim_C2_witness :
    ([("image", "x")].lookup "image" = some "x") ∧
    demoB64 (pyStripB64 "x") = some [] ∧
    pyMaxBy (collectResults demoOps demoModels []) =
      some ⟨"digit", "0", q35⟩ ∧
    (SResult.mk "digit" "0" q35).confidence = KERAS_CONFIDENCE_THRESHOLD ∧
    interpret_sign demoOps demoModels demoB64 (some [("image", "x")]) =
      ⟨.result "0" q35 "digit", 200⟩ :=
  ⟨by decide, rfl, by decide, q35_eq_threshold,
    (claim_C2_threshold demoOps demoModels demoB64 [("image", "x")] "x" []
      ⟨"digit", "0", q35⟩ (by decide) rfl (by decide)).1 q35_eq_threshold⟩

/-- C3: when no SymbolSet survives — every registry entry is unloaded or
fails preprocessing, inference, or the bound check — the handler returns
the structured response with confidence 0 and model `"none"` rather than
raising. -/
theorem claim_C3_no_result (ops : ImageOps)
    (models : List (String × Option KerasModel))
    (decodeB64 : String → Option (List Nat))
    (d : List (String × String)) (image_data : String)
    (image_bytes : List Nat)
    (hd : d.lookup "image" = some image_data)
    (hdec : decodeB64 (pyStripB64 image_data) = some image_bytes)
    (hall : ∀ entry ∈ models, stepModel ops image_bytes entry = none) :
    interpret_sign ops models decodeB64 (some d) =
      ⟨.result "Unable to interpret sign (Prediction failed for all models)"
        0 "none", 500⟩ := by
  have hres : collectResults ops models image_bytes = [] :=
    List.filterMap_eq_nil_iff.mpr hall
  simp only [interpret_sign, hd, hdec, hres, pyMaxBy]

/-- Witness for C3: a registry whose only model failed to load. -/
theorem claim_C3_witness :
    ([("image", "x")].lookup "image" = some "x") ∧
    demoB64 (pyStripB64 "x") = some [] ∧
    (∀ entry ∈ [(("digit" : String), (none : Option KerasModel))],
      stepModel demoOps [] entry = none) ∧
    interpret_sign demoOps [("digit", none)] demoB64
      (some [("image", "x")]) =
      ⟨.result "Unable to interpret sign (Prediction failed for all models)"
        0 "none", 500⟩ :=
  ⟨by decide, rfl, by decide,
    claim_C3_no_result demoOps [("digit", none)] demoB64 [("image", "x")]
      "x" [] (by decide) rfl (by decide)⟩

/-- C4: a SymbolSet whose preprocessing or inference fails is absorbed:
the candidate list is exactly the one obtained had that SymbolSet never
been configured. -/
theorem claim_C4_failure_absorbed (ops : ImageOps) (image_bytes : List Nat)
    (pre post : List (String × Option KerasModel)) (name : String)
    (m : KerasModel)
    (hfail : preprocess_image_for_keras ops image_bytes name = none ∨
      ∃ t, preprocess_image_for_keras ops image_bytes name = some t ∧
        m.predict t = none) :
    collectResults ops (pre ++ (name, some m) :: post) image_bytes =
      collectResults ops (pre ++ post) image_bytes := by
  have hnone : stepModel ops image_bytes (name, some m) = none := by
    refine stepModel_none_of_skip ops image_bytes name m ?_
    rcases hfail with hp | ⟨t, hp, hpred⟩
    · exact Or.inl hp
    · exact Or.inr (Or.inl ⟨t, hp, hpred⟩)
  unfold collectResults
  rw [List.filterMap_append, List.filterMap_append,
    List.filterMap_cons_none hnone]

/-- Witness for C4: a decoding failure removes the `digit` entry. -/
theorem claim_C4_witness :
    (preprocess_image_for_keras demoFailOps [] "digit" = none ∨
      ∃ t, preprocess_image_for_keras demoFailOps [] "digit" = some t ∧
        demoModel.predict t = none) ∧
    collectResults demoFailOps ([] ++ ("digit", some demoModel) :: []) [] =
      collectResults demoFailOps ([] ++ []) [] :=
  ⟨Or.inl rfl,
    claim_C4_failure_absorbed demoFailOps [] [] [] "digit" demoModel
      (Or.inl rfl)⟩

/-- C5: for every decodable image, the `asl` (grayscale) pipeline yields a
`1 × 28 × 28 × 1` tensor and the `digit` and `isl` (color) pipelines yield
`1 × 32 × 32 × 3` tensors — never mixed up — with every entry a pixel
intensity divided by the maximal representable value 255, hence in
`[0, 1]`, under a leading batch axis of size 1. -/
theorem claim_C5_preprocess_shapes (ops : ImageOps) (image_bytes : List Nat)
    (img : PILImage) (h : ops.decode image_bytes = some img) :
    (∃ t, preprocess_image_for_keras ops image_bytes "asl" = some t ∧
      t.shape = [1, 28, 28, 1] ∧
      ∀ v ∈ t.entries,
        (∃ p : Nat, p ≤ 255 ∧ v = (p : ℚ) / 255) ∧ 0 ≤ v ∧ v ≤ 1) ∧
    (∃ t, preprocess_image_for_keras ops image_bytes "digit" = some t ∧
      t.shape = [1, 32, 32, 3] ∧
      ∀ v ∈ t.entries,
        (∃ p : Nat, p ≤ 255 ∧ v = (p : ℚ) / 255) ∧ 0 ≤ v ∧ v ≤ 1) ∧
    (∃ t, preprocess_image_for_keras ops image_bytes "isl" = some t ∧
      t.shape = [1, 32, 32, 3] ∧
      ∀ v ∈ t.entries,
        (∃ p : Nat, p ≤ 255 ∧ v = (p : ℚ) / 255) ∧ 0 ≤ v ∧ v ≤ 1) :=
  ⟨preprocess_asl_spec ops image_bytes img h,
   preprocess_color_spec ops image_bytes img h "digit" (Or.inl rfl),
   preprocess_color_spec ops image_bytes img h "isl" (Or.inr rfl)⟩

/-- Witness for C5 at a concrete decodable image. -/
theorem claim_C5_witness :
    demoOps.decode [] = some constImg ∧
    ((∃ t, preprocess_image_for_keras demoOps [] "asl" = some t ∧
      t.shape = [1, 28, 28, 1] ∧
      ∀ v ∈ t.entries,
        (∃ p : Nat, p ≤ 255 ∧ v = (p : ℚ) / 255) ∧ 0 ≤ v ∧ v ≤ 1) ∧
    (∃ t, preprocess_image_for_keras demoOps [] "digit" = some t ∧
      t.shape = [1, 32, 32, 3] ∧
      ∀ v ∈ t.entries,
        (∃ p : Nat, p ≤ 255 ∧ v = (p : ℚ) / 255) ∧ 0 ≤ v ∧ v ≤ 1) ∧
    (∃ t, preprocess_image_for_keras demoOps [] "isl" = some t ∧
      t.shape = [1, 32, 32, 3] ∧
      ∀ v ∈ t.entries,
        (∃ p : Nat, p ≤ 255 ∧ v = (p : ℚ) / 255) ∧ 0 ≤ v ∧ v ≤ 1)) :=
  ⟨rfl, claim_C5_preprocess_shapes demoOps [] constImg rfl⟩

/-- C6: an argmax index at or beyond the alphabet length makes the loop
skip the SymbolSet (no candidate, no crash); consequently every decision
the arbiter returns carries a label from the winning SymbolSet's alphabet
and a confidence equal to that SymbolSet's maximal output probability. -/
theorem claim_C6_bound_check (ops : ImageOps) (image_bytes : List Nat) :
    (∀ (name : String) (m : KerasModel) (t : NDArray) (row : List ℚ)
      (rest : List (List ℚ)) (idx : Nat),
      preprocess_image_for_keras ops image_bytes name = some t →
      m.predict t = some (row :: rest) →
      npArgmax row = some idx →
      (labelMapGet name).length ≤ idx →
      stepModel ops image_bytes (name, some m) = none) ∧
    (∀ (models : List (String × Option KerasModel)) (best : SResult),
      pyMaxBy (collectResults ops models image_bytes) = some best →
      best.label ∈ labelMapGet best.model ∧
      ∃ m t row rest,
        (best.model, some m) ∈ models ∧
        preprocess_image_for_keras ops image_bytes best.model = some t ∧
        m.predict t = some (row :: rest) ∧
        npMax row = some best.confidence) := by
  constructor
  · intro name m t row rest idx hp hpred harg hge
    exact stepModel_none_of_skip ops image_bytes name m
      (Or.inr (Or.inr ⟨t, row, rest, idx, hp, hpred, harg, hge⟩))
  · intro models best hbest
    have hmem := pyMaxBy_mem _ _ hbest
    obtain ⟨entry, hentry, hstep⟩ := List.mem_filterMap.mp hmem
    obtain ⟨hmodel, hlabel, m, t, row, rest, idx, hm2, hp, hpred, hmax, -,
      -, -⟩ := stepModel_some_spec ops image_bytes entry.1 entry.2 best hstep
    have hent : entry = (best.model, some m) := by
      rw [hmodel, ← hm2]
    refine ⟨hmodel ▸ hlabel, m, t, row, rest, ?_, hmodel ▸ hp, hpred, hmax⟩
    rw [← hent]
    exact hentry

/-- Witness for C6: a 1-class classifier on the `digit` alphabet. -/
theorem claim_C6_witness :
    preprocess_image_for_keras demoOps [] "digit" =
      some (NDArray.expandFirst
        ((npOfRGBImg (resize demoOps constImg 32 32)).mapScalars
          (fun v => v / 255))) ∧
    pyMaxBy (collectResults demoOps demoModels []) =
      some ⟨"digit", "0", q35⟩ ∧
    ((SResult.mk "digit" "0" q35).label ∈
        labelMapGet (SResult.mk "digit" "0" q35).model ∧
      ∃ m t row rest,
        ((SResult.mk "digit" "0" q35).model, some m) ∈ demoModels ∧
        preprocess_image_for_keras demoOps []
          (SResult.mk "digit" "0" q35).model = some t ∧
        m.predict t = some (row :: rest) ∧
        npMax row = some (SResult.mk "digit" "0" q35).confidence) :=
  ⟨by unfold preprocess_image_for_keras; rfl, by decide,
    (claim_C6_bound_check demoOps []).2 demoModels ⟨"digit", "0", q35⟩
      (by decide)⟩

/-- C7: a bare base64 payload and the same payload behind a data-URL
prefix ending in `'base64,'` decode to the same image string — the
stripping recovers exactly the bare payload (base64 text contains no
comma, so the separator occurs only in the prefix) — hence the handler
returns identical responses for the two requests. -/
theorem claim_C7_data_url_roundtrip (ops : ImageOps)
    (models : List (String × Option KerasModel))
    (decodeB64 : String → Option (List Nat))
    (head : List Char) (bytes : List Nat) (hc : ',' ∉ head) :
    pyStripB64 ⟨head ++ (SEP ++ b64encode bytes)⟩ = ⟨b64encode bytes⟩ ∧
    pyStripB64 ⟨b64encode bytes⟩ = ⟨b64encode bytes⟩ ∧
    interpret_sign ops models decodeB64
      (some [("image", ⟨head ++ (SEP ++ b64encode bytes)⟩)]) =
    interpret_sign ops models decodeB64
      (some [("image", ⟨b64encode bytes⟩)]) := by
  have h1 := pyStripB64_strip head (b64encode bytes) hc
    (b64encode_no_comma bytes)
  have h2 : pyStripB64 ⟨b64encode bytes⟩ = (⟨b64encode bytes⟩ : String) :=
    pyStripB64_no_comma _ (b64encode_no_comma bytes)
  refine ⟨h1, h2, ?_⟩
  simp only [interpret_sign, List.lookup, beq_self_eq_true, h1, h2]

/-- Witness for C7: a PNG data-URL prefix around a two-byte payload. -/
theorem claim_C7_witness :
    (',' ∉ "data:image/png;".data) ∧
    (pyStripB64 ⟨"data:image/png;".data ++ (SEP ++ b64encode [72, 105])⟩ =
      ⟨b64encode [72, 105]⟩ ∧
    pyStripB64 ⟨b64encode [72, 105]⟩ = ⟨b64encode [72, 105]⟩ ∧
    interpret_sign demoOps demoModels demoB64
      (some [("image",
        ⟨"data:image/png;".data ++ (SEP ++ b64encode [72, 105])⟩)]) =
    interpret_sign demoOps demoModels demoB64
      (some [("image", ⟨b64encode [72, 105]⟩)])) :=
  ⟨by decide, claim_C7_data_url_roundtrip demoOps demoModels demoB64
    "data:image/png;".data [72, 105] (by decide)⟩

/-- A base64 decoder rejecting everything (`binascii.Error`). -/
def demoBadB64 : String → Option (List Nat) := fun _ => none

/-- C8: a request body without the `image` field — or no JSON body at
all — yields the 400 "Image data is required" error object, and an image
payload the base64 decoder rejects yields the 400 "Invalid base64 data"
error object; in each case a structured response, never an uncaught
exception. -/
theorem claim_C8_malformed_input (ops : ImageOps)
    (models : List (String × Option KerasModel))
    (decodeB64 : String → Option (List Nat)) :
    interpret_sign ops models decodeB64 none =
      ⟨.error "Image data is required", 400⟩ ∧
    (∀ d : List (String × String), d.lookup "image" = none →
      interpret_sign ops models decodeB64 (some d) =
        ⟨.error "Image data is required", 400⟩) ∧
    (∀ (d : List (String × String)) (s : String),
      d.lookup "image" = some s → decodeB64 (pyStripB64 s) = none →
      interpret_sign ops models decodeB64 (some d) =
        ⟨.error "Invalid base64 data", 400⟩) := by
  refine ⟨rfl, ?_, ?_⟩
  · intro d hd
    simp only [interpret_sign, hd]
  · intro d s hd hdec
    simp only [interpret_sign, hd, hdec]

/-- Witness for C8: a rejected payload gives the 400 error object. -/
theorem claim_C8_witness :
    ([("image", "!!")].lookup "image" = some "!!") ∧
    demoBadB64 (pyStripB64 "!!") = none ∧
    interpret_sign demoOps demoModels demoBadB64 (some [("image", "!!")]) =
      ⟨.error "Invalid base64 data", 400⟩ :=
  ⟨by decide, rfl,
    (claim_C8_malformed_input demoOps demoModels demoBadB64).2.2
      [("image", "!!")] "!!" (by decide) rfl⟩

/-- Synthesis succeeds, the read-back of the written file raises. -/
def demoTTS : GTTSOps := ⟨fun _ _ => some [1, 2, 3], fun _ => none⟩

/-- C9 concerns the claim that text-to-speech uses a unique temporary
filename per call and deletes it on every exit path.  The code does
neither: the filename is the module constant `"temp_audio.mp3"` shared by
every call, and when the read after `tts.save` raises, the `except` path
returns 500 with the file still on disk.  This theorem evaluates the
handler at such a failing input: the response is the 500 error and the
fixed-name temp file is left in the filesystem. -/
theorem claim_C9_temp_file_behavior :
    temp_filename = "temp_audio.mp3" ∧
    (text_to_speech_endpoint demoTTS []
      (some [("text", "hello"), ("language", "en-US")])).1.status = 500 ∧
    (text_to_speech_endpoint demoTTS []
      (some [("text", "hello"), ("language", "en-US")])).2.lookup
        temp_filename = some [1, 2, 3] := by
  decide

/-- C10: below the threshold, the response's text is not the bare label
but the fixed message with the label embedded, while the confidence and
model fields carry the real winning values (the response shape has no
separate accepted flag — see `RespBody`). -/
theorem claim_C10_low_confidence_text (ops : ImageOps)
    (models : List (String × Option KerasModel))
    (decodeB64 : String → Option (List Nat))
    (d : List (String × String)) (image_data : String)
    (image_bytes : List Nat) (best : SResult)
    (hd : d.lookup "image" = some image_data)
    (hdec : decodeB64 (pyStripB64 image_data) = some image_bytes)
    (hbest : pyMaxBy (collectResults ops models image_bytes) = some best)
    (hlow : best.confidence < KERAS_CONFIDENCE_THRESHOLD) :
    interpret_sign ops models decodeB64 (some d) =
      ⟨.result ("Unable to interpret sign (Low Confidence: " ++
        best.label ++ "?)") best.confidence best.model, 200⟩ ∧
    "Unable to interpret sign (Low Confidence: " ++ best.label ++ "?)" ≠
      best.label := by
  constructor
  · simp only [interpret_sign, hd, hdec, hbest]
    rw [if_neg (not_le.mpr hlow)]
  · intro hEq
    have hlen := congrArg String.length hEq
    rw [String.length_append, String.length_append,
      show ("Unable to interpret sign (Low Confidence: ").length = 42
        from rfl,
      show ("?)").length = 2 from rfl] at hlen
    omega

/-- Witness for C10: a 0.4-confidence winner is wrapped, not dropped. -/
theorem claim_C10_witness :
    ([("image", "x")].lookup "image" = some "x") ∧
    demoB64 (pyStripB64 "x") = some [] ∧
    pyMaxBy (collectResults demoOps demoLowModels []) =
      some ⟨"digit", "1", q25⟩ ∧
    q25 < KERAS_CONFIDENCE_THRESHOLD ∧
    (interpret_sign demoOps demoLowModels demoB64 (some [("image", "x")]) =
      ⟨.result ("Unable to interpret sign (Low Confidence: " ++
        "1" ++ "?)") q25 "digit", 200⟩ ∧
    "Unable to interpret sign (Low Confidence: " ++ "1" ++ "?)" ≠ "1") :=
  ⟨by decide, rfl, by decide, q25_lt_threshold,
    claim_C10_low_confidence_text demoOps demoLowModels demoB64
      [("image", "x")] "x" [] ⟨"digit", "1", q25⟩ (by decide) rfl
      (by decide) q25_lt_threshold⟩
